import Mathlib

/-!
Verification of the IoT sensor data analyzer (`analyzer.py`) against its
specification. The Python source is shallowly embedded: Python floats are
modelled by exact rationals (plus explicit `inf` / `-inf` / `nan`
constructors for the special values accepted by Python's `float()`
constructor), datetimes by a record of calendar fields plus an optional
UTC offset in minutes, and fallible parsing by `Option`.

`std_dev` in the source is `math.sqrt` of the (population) variance; the
embedded statistics record stores the radicand `stdDevSq` exactly, and the
theorems speak about `Real.sqrt stdDevSq` where the claim mentions the
standard deviation itself.
-/

namespace Analyzer

/-- Python `float` values as produced by the `float()` constructor:
either a finite number (modelled exactly as a rational) or one of the
special values `inf`, `-inf`, `nan`, which `float("inf")`, `float("-inf")`,
`float("nan")` (case-insensitively, also spelled `infinity`) produce. -/
inductive PyFloat where
  | finite (q : ℚ)
  | inf
  | negInf
  | nan
deriving DecidableEq, Repr

/-- A `PyFloat` is finite when it is an ordinary number, not `±inf`/`nan`. -/
def PyFloat.isFinite : PyFloat → Bool
  | .finite _ => true
  | _ => false

/-- The whitespace characters stripped by Python's `str.strip()`
(restricted to the ASCII whitespace characters; the inputs the program
meets are ASCII). -/
def isPySpace (c : Char) : Bool :=
  c = ' ' || c = '\t' || c = '\n' || c = '\x0d' || c = '\x0b' || c = '\x0c'

/-- Model of Python `str.strip()`: drop leading and trailing whitespace. -/
def pyStrip (s : String) : String :=
  ⟨((s.data.dropWhile isPySpace).reverse.dropWhile isPySpace).reverse⟩

/-- Numeric value of a decimal digit character. -/
def digitVal (c : Char) : ℕ := c.toNat - 48

/-- Scan a run of decimal digits in which single underscores may appear
between two digits (Python numeric-literal grammar `digit (["_"] digit)*`).
Returns the accumulated value, the number of digits consumed and the rest
of the input. `acc` and `n` are the value and digit count scanned so far. -/
def scanDigitRun (acc n : ℕ) : List Char → ℕ × ℕ × List Char
  | [] => (acc, n, [])
  | [c] =>
    if c.isDigit then (10 * acc + digitVal c, n + 1, [])
    else (acc, n, [c])
  | c :: '_' :: d :: cs2 =>
    if c.isDigit then
      if d.isDigit then
        scanDigitRun (10 * acc + digitVal c) (n + 1) (d :: cs2)
      else (10 * acc + digitVal c, n + 1, '_' :: d :: cs2)
    else (acc, n, c :: '_' :: d :: cs2)
  | c :: c2 :: cs =>
    if c.isDigit then scanDigitRun (10 * acc + digitVal c) (n + 1) (c2 :: cs)
    else (acc, n, c :: c2 :: cs)

/-- Parse a nonempty digit run (with optional internal underscores);
fails when the input does not start with a digit. -/
def parseDigitRun (cs : List Char) : Option (ℕ × ℕ × List Char) :=
  match cs with
  | c :: _ => if c.isDigit then some (scanDigitRun 0 0 cs) else none
  | [] => none

/-- Parse the optional exponent suffix `("e"|"E") [sign] digits` of a
Python float literal and apply it to the mantissa `q`; the whole remaining
input must be consumed. -/
def parseExponentSuffix (q : ℚ) : List Char → Option ℚ
  | [] => some q
  | e :: rest =>
    if e = 'e' || e = 'E' then
      let (sgn, rest2) :=
        match rest with
        | '+' :: r => ((1 : ℤ), r)
        | '-' :: r => ((-1 : ℤ), r)
        | r => ((1 : ℤ), r)
      match parseDigitRun rest2 with
      | some (ev, _, []) => some (q * (10 : ℚ) ^ (sgn * (ev : ℤ)))
      | _ => none
    else none

/-- Parse a Python decimal float literal (no sign, no specials):
`digits ["." [digits]] [exp]` or `"." digits [exp]`, with underscores
allowed inside digit runs. Consumes the entire input or fails. -/
def parseDecimalLit (cs : List Char) : Option ℚ :=
  match parseDigitRun cs with
  | some (iv, _, rest) =>
    match rest with
    | '.' :: rest2 =>
      match parseDigitRun rest2 with
      | some (fv, fn, rest3) =>
        parseExponentSuffix ((iv : ℚ) + (fv : ℚ) / (10 : ℚ) ^ fn) rest3
      | none => parseExponentSuffix (iv : ℚ) rest2
    | _ => parseExponentSuffix (iv : ℚ) rest
  | none =>
    match cs with
    | '.' :: rest2 =>
      match parseDigitRun rest2 with
      | some (fv, fn, rest3) =>
        parseExponentSuffix ((fv : ℚ) / (10 : ℚ) ^ fn) rest3
      | none => none
    | _ => none

/-- Model of Python's `float(s)` constructor on an already-stripped
string: an optional sign followed by either a case-insensitive special
spelling (`inf`, `infinity`, `nan`) or a decimal literal. Returns `none`
where `float()` raises `ValueError`. -/
def pyFloatOfString (s : String) : Option PyFloat :=
  let (neg, body) :=
    match s.data with
    | '+' :: rest => (false, rest)
    | '-' :: rest => (true, rest)
    | rest => (false, rest)
  let low := body.map Char.toLower
  if low = ['i', 'n', 'f'] || low = ['i', 'n', 'f', 'i', 'n', 'i', 't', 'y'] then
    some (if neg then PyFloat.negInf else PyFloat.inf)
  else if low = ['n', 'a', 'n'] then
    some PyFloat.nan
  else
    match parseDecimalLit body with
    | some q => some (PyFloat.finite (if neg then -q else q))
    | none => none

/-- Embedding of `convert_to_float` (analyzer.py lines 113-121): `None` or
a string that is empty after stripping yields `None`; otherwise the
stripped string is given to `float()`, and a `ValueError` (modelled by the
parser returning `none`) is swallowed, yielding `None`. The function is
total: no exception reaches the caller. -/
def convert_to_float (value_str : Option String) : Option PyFloat :=
  match value_str with
  | none => none
  | some s =>
    if pyStrip s = "" then none
    else pyFloatOfString (pyStrip s)

/-- The statistics record produced by `compute_statistics`. The source
stores `std_dev = math.sqrt(variance)`; the embedding stores the exact
radicand `stdDevSq` (the population variance, with the source's special
case `count == 1 → 0.0`), and theorems apply `Real.sqrt` to it wherever
the claim speaks of `std_dev`. -/
structure SensorStats where
  average : ℚ
  min : ℚ
  max : ℚ
  count : ℕ
  stdDevSq : ℚ
deriving DecidableEq, Repr

/-- Embedding of `compute_statistics` (analyzer.py lines 123-155) over
finite values. `None` entries are filtered out first (the list
comprehension `[v for v in values if v is not None]` is `reduceOption`);
an empty remainder yields the all-zero record; otherwise count, mean,
exact min/max (Python `min`/`max` fold binary min/max over the list) and
the population variance, with variance forced to `0.0` when
`count == 1`. -/
def compute_statistics (values : List (Option ℚ)) : SensorStats :=
  match values.reduceOption with
  | [] => { average := 0, min := 0, max := 0, count := 0, stdDevSq := 0 }
  | x :: xs =>
    { average := (x :: xs).sum / ((x :: xs).length : ℚ)
      min := xs.foldl Min.min x
      max := xs.foldl Max.max x
      count := (x :: xs).length
      stdDevSq :=
        if (x :: xs).length = 1 then 0
        else
          ((x :: xs).map
            (fun v => (v - (x :: xs).sum / ((x :: xs).length : ℚ)) ^ 2)).sum
            / ((x :: xs).length : ℚ) }

/-- A parsed Python `datetime`: calendar fields plus the `tzinfo` UTC
offset in minutes (`none` = naive, i.e. no `tzinfo`). -/
structure PyDateTime where
  year : ℕ
  month : ℕ
  day : ℕ
  hour : ℕ
  minute : ℕ
  second : ℕ
  tzOffsetMin : Option ℤ
deriving DecidableEq, Repr

/-- Parse exactly four decimal digits (strptime directive `%Y`). -/
def parseYear4 : List Char → Option (ℕ × List Char)
  | a :: b :: c :: d :: rest =>
    if a.isDigit && b.isDigit && c.isDigit && d.isDigit then
      some (1000 * digitVal a + 100 * digitVal b + 10 * digitVal c + digitVal d, rest)
    else none
  | _ => none

/-- Parse a one- or two-digit field the way the strptime regexes for
`%m`, `%d`, `%H`, `%M`, `%S` do: prefer two digits when their value lies
in `[lo, hi]`, otherwise fall back to a single digit with value `≥ lo`
(the single-digit alternatives in those regexes are `[1-9]` resp. `\d`). -/
def parseNum2or1 (lo hi : ℕ) : List Char → Option (ℕ × List Char)
  | c1 :: c2 :: rest =>
    if c1.isDigit && c2.isDigit
        && lo ≤ 10 * digitVal c1 + digitVal c2
        && 10 * digitVal c1 + digitVal c2 ≤ hi then
      some (10 * digitVal c1 + digitVal c2, rest)
    else if c1.isDigit && lo ≤ digitVal c1 then
      some (digitVal c1, c2 :: rest)
    else none
  | [c1] =>
    if c1.isDigit && lo ≤ digitVal c1 then some (digitVal c1, []) else none
  | [] => none

/-- A literal character of the format string. -/
def parseLit (ch : Char) : List Char → Option (List Char)
  | c :: cs => if c = ch then some cs else none
  | [] => none

/-- A whitespace character in a strptime format matches one or more
whitespace characters of the input. -/
def parseWs : List Char → Option (List Char)
  | c :: cs => if isPySpace c then some (cs.dropWhile isPySpace) else none
  | [] => none

/-- The strptime `%z` directive: `Z` (literally, meaning UTC) or a sign,
two hour digits, an optional colon and two minute digits (minutes `00`-`59`).
The resulting offset must be an admissible `timezone` offset, i.e. strictly
less than 24 hours in magnitude. (The rarely-used optional seconds part of
`%z` is not modelled.) Returns the offset in minutes. -/
def parseTzOffset : List Char → Option (ℤ × List Char)
  | 'Z' :: rest => some (0, rest)
  | c :: rest =>
    if c = '+' || c = '-' then
      match rest with
      | h1 :: h2 :: rest2 =>
        if h1.isDigit && h2.isDigit then
          let hh := 10 * digitVal h1 + digitVal h2
          let rest3 := match rest2 with
            | ':' :: r => r
            | r => r
          match rest3 with
          | m1 :: m2 :: rest4 =>
            if m1.isDigit && m2.isDigit && digitVal m1 ≤ 5
                && 60 * hh + 10 * digitVal m1 + digitVal m2 ≤ 1439 then
              let mins : ℤ := (60 * hh + 10 * digitVal m1 + digitVal m2 : ℕ)
              some (if c = '-' then -mins else mins, rest4)
            else none
          | _ => none
        else none
      | _ => none
    else none
  | [] => none

/-- The strptime `%Z` directive: a known timezone name, matched
case-insensitively. Portably these are `UTC` and `GMT` (the names local to
the host are environment-dependent and not modelled). -/
def parseTzName (cs : List Char) : Option (List Char) :=
  let low := (cs.take 3).map Char.toLower
  if low = ['u', 't', 'c'] || low = ['g', 'm', 't'] then some (cs.drop 3)
  else none

/-- Gregorian leap-year test, as in Python's `calendar.isleap`. -/
def isLeapYear (y : ℕ) : Bool :=
  y % 4 = 0 && (y % 100 ≠ 0 || y % 400 = 0)

/-- Number of days in a month (1-12) of a given year. -/
def daysInMonth (y m : ℕ) : ℕ :=
  if m = 2 then (if isLeapYear y then 29 else 28)
  else if m = 4 || m = 6 || m = 9 || m = 11 then 30
  else 31

/-- The validity checks performed by the `datetime(...)` constructor after
the strptime regex has matched: year in `MINYEAR..MAXYEAR` and a real
calendar day. -/
def validDate (y m d : ℕ) : Bool :=
  1 ≤ y && y ≤ 9999 && 1 ≤ m && m ≤ 12 && 1 ≤ d && d ≤ daysInMonth y m

/-- The `YYYY-MM-DD` part shared by all three accepted formats. -/
def parseDatePart (cs : List Char) : Option ((ℕ × ℕ × ℕ) × List Char) := do
  let (y, r1) ← parseYear4 cs
  let r2 ← parseLit '-' r1
  let (m, r3) ← parseNum2or1 1 12 r2
  let r4 ← parseLit '-' r3
  let (d, r5) ← parseNum2or1 1 31 r4
  pure ((y, m, d), r5)

/-- The `HH:MM:SS` part of the first two formats. Seconds are capped at 59:
the regex alternative for leap seconds (60, 61) is accepted by the match
but then rejected by the `datetime` constructor, so the net effect on
`strptime`'s result is the same. -/
def parseTimePart (cs : List Char) : Option ((ℕ × ℕ × ℕ) × List Char) := do
  let (h, r1) ← parseNum2or1 0 23 cs
  let r2 ← parseLit ':' r1
  let (mi, r3) ← parseNum2or1 0 59 r2
  let r4 ← parseLit ':' r3
  let (sec, r5) ← parseNum2or1 0 59 r4
  pure ((h, mi, sec), r5)

/-- The three timestamp formats accepted by `parse_datetime`
(analyzer.py lines 65-69), in priority order. -/
inductive TsFormat where
  | ymdHmsZoned
  | ymdHms
  | ymd
deriving DecidableEq, Repr

/-- Model of `datetime.strptime(date_str, fmt)` for the three format
strings of `parse_datetime`: the whole input must be consumed, and the
calendar fields must pass the `datetime` constructor's validation.
Formats 2 and 3 yield a naive datetime (`tzOffsetMin = none`); format 1
carries the `%z` offset (the `%Z` name is matched but, as in CPython,
contributes nothing beyond having to be a known name). -/
def strptime : TsFormat → String → Option PyDateTime
  | .ymdHmsZoned, s => do
    let ((y, m, d), r1) ← parseDatePart s.data
    let r2 ← parseWs r1
    let ((h, mi, sec), r3) ← parseTimePart r2
    let r4 ← parseWs r3
    let (off, r5) ← parseTzOffset r4
    let r6 ← parseWs r5
    let r7 ← parseTzName r6
    if r7 = [] && validDate y m d then
      pure ⟨y, m, d, h, mi, sec, some off⟩
    else none
  | .ymdHms, s => do
    let ((y, m, d), r1) ← parseDatePart s.data
    let r2 ← parseWs r1
    let ((h, mi, sec), r3) ← parseTimePart r2
    if r3 = [] && validDate y m d then
      pure ⟨y, m, d, h, mi, sec, none⟩
    else none
  | .ymd, s => do
    let ((y, m, d), r1) ← parseDatePart s.data
    if r1 = [] && validDate y m d then
      pure ⟨y, m, d, 0, 0, 0, none⟩
    else none

/-- The timezone fix-up inside `parse_datetime`'s loop: a naive result is
assigned UTC (`dt.replace(tzinfo=timezone.utc)`). -/
def assignUTCIfNaive (dt : PyDateTime) : PyDateTime :=
  if dt.tzOffsetMin.isNone then { dt with tzOffsetMin := some 0 } else dt

/-- The `for fmt in formats` loop of `parse_datetime`: try each format in
turn, returning the first success (with the UTC fix-up applied); `none`
models the final `raise ValueError`. -/
def tryTsFormats : List TsFormat → String → Option PyDateTime
  | [], _ => none
  | f :: fs, s =>
    match strptime f s with
    | some dt => some (assignUTCIfNaive dt)
    | none => tryTsFormats fs s

/-- The format priority list of `parse_datetime` (analyzer.py lines 65-69). -/
def tsFormatPriority : List TsFormat := [.ymdHmsZoned, .ymdHms, .ymd]

/-- Embedding of `parse_datetime` (analyzer.py lines 64-81). -/
def parse_datetime (s : String) : Option PyDateTime :=
  tryTsFormats tsFormatPriority s

/-- Days from a fixed origin to year `y`, month `m`, day `d` (proleptic
Gregorian, as `datetime.toordinal`). -/
def dayOrdinal (y m d : ℕ) : ℕ :=
  365 * (y - 1) + (y - 1) / 4 - (y - 1) / 100 + (y - 1) / 400
    + (List.range (m - 1)).foldl (fun acc i => acc + daysInMonth y (i + 1)) 0
    + (d - 1)

/-- The instant (in seconds, as an integer on an absolute scale) denoted by
an aware `PyDateTime`; Python compares aware datetimes by exactly this
quantity (wall-clock time minus the UTC offset). A naive datetime is given
offset 0, but every datetime compared by the analyzer is aware. -/
def toInstant (dt : PyDateTime) : ℤ :=
  (dayOrdinal dt.year dt.month dt.day : ℤ) * 86400
    + dt.hour * 3600 + dt.minute * 60 + dt.second
    - 60 * dt.tzOffsetMin.getD 0

/-- One input record, with the fields the analyzer reads. The `value`
field is optional because `csv.DictReader` yields `None` for a missing
column, and `convert_to_float` handles that case. -/
structure Row where
  time : String
  site : String
  device : String
  metric : String
  unit : String
  value : Option String
deriving DecidableEq, Repr

/-- The parsed command-line arguments as `should_include` sees them:
optional exact-match strings and optional parsed datetimes. An empty
string passed on the command line for `--start-date`/`--end-date` is
falsy at every use, so it is represented by `none`. -/
structure Args where
  site : Option String
  device : Option String
  metric : Option String
  start_date : Option PyDateTime
  end_date : Option PyDateTime
deriving DecidableEq, Repr

/-- `if args.site and row['site'] != args.site: return False` — the
criterion rejects the row when the criterion is truthy (present and
nonempty: Python's `and` short-circuits on `None` and on `""`) and the
field differs from it. -/
def strCritRejects (crit : Option String) (field : String) : Bool :=
  match crit with
  | none => false
  | some c => c ≠ "" && field ≠ c

/-- `if args.start_date and row_time < args.start_date: return False`
(the bound, a datetime, is always truthy when present). -/
def lowerBoundRejects (bound : Option PyDateTime) (t : PyDateTime) : Bool :=
  match bound with
  | none => false
  | some b => toInstant t < toInstant b

/-- `if args.end_date and row_time > args.end_date: return False`. -/
def upperBoundRejects (bound : Option PyDateTime) (t : PyDateTime) : Bool :=
  match bound with
  | none => false
  | some b => toInstant b < toInstant t

/-- Embedding of `should_include` (analyzer.py lines 83-111): the three
string filters in order, then — only when a date bound is present — the
row's stripped timestamp is parsed, an unparsable timestamp excluding the
row (`except ...: return False`), and the parsed time checked against the
inclusive bounds. -/
def should_include (row : Row) (args : Args) : Bool :=
  if strCritRejects args.site row.site then false
  else if strCritRejects args.device row.device then false
  else if strCritRejects args.metric row.metric then false
  else if args.start_date.isSome || args.end_date.isSome then
    match parse_datetime (pyStrip row.time) with
    | none => false
    | some t =>
      if lowerBoundRejects args.start_date t then false
      else if upperBoundRejects args.end_date t then false
      else true
  else true

/-- Aggregation key `(row['device'], row['site'], row['metric'])`. -/
abbrev GroupKey := String × String × String

/-- The key under which a row's value is aggregated. -/
def rowKey (row : Row) : GroupKey := (row.device, row.site, row.metric)

/-- One iteration of the row loop in `main` (analyzer.py lines 198-205):
a row passing the filter whose value converts to a float appends that
value to its group; otherwise the aggregation is unchanged. -/
def stepAggregation (args : Args) (agg : GroupKey → List PyFloat) (row : Row) :
    GroupKey → List PyFloat :=
  if should_include row args then
    match convert_to_float row.value with
    | some v => fun k => if k = rowKey row then agg k ++ [v] else agg k
    | none => agg
  else agg

/-- The whole row loop of `main`: fold `stepAggregation` over the input
rows starting from the empty `defaultdict(list)`. -/
def buildAggregations (rows : List Row) (args : Args) : GroupKey → List PyFloat :=
  rows.foldl (stepAggregation args) (fun _ => [])

/-- Embedding of `main`'s top-10-by-average (analyzer.py lines 222-227):
`sorted(stats.items(), key=lambda x: x[1]['average'], reverse=True)[:10]`.
Python's `sorted` is a stable sort; with `reverse=True` it is a stable
sort under the relation `key b ≤ key a`, which is what `mergeSort` with
that relation computes. -/
def top_by_avg (stats : List (GroupKey × SensorStats)) : List (GroupKey × SensorStats) :=
  (stats.mergeSort (fun a b => decide (b.2.average ≤ a.2.average))).take 10

/-- Embedding of `main`'s top-10-by-standard-deviation (analyzer.py lines
229-234). The source sorts by `std_dev = sqrt(stdDevSq)`; since every
variance the program produces is nonnegative and the square root is
strictly monotone there, comparing the radicands is the same comparison. -/
def top_by_stddev (stats : List (GroupKey × SensorStats)) : List (GroupKey × SensorStats) :=
  (stats.mergeSort (fun a b => decide (b.2.stdDevSq ≤ a.2.stdDevSq))).take 10

/-- Modelled from the claim's words (for claim C2): the string criterion
is satisfied iff it is absent or the field equals it exactly. -/
def claimCritOk (crit : Option String) (field : String) : Bool :=
  match crit with
  | none => true
  | some c => field == c

/-- The amended string-criterion condition: absent or empty or an exact
match (an empty criterion string is falsy in Python and so never
filters). -/
def amendedCritOk (crit : Option String) (field : String) : Bool :=
  match crit with
  | none => true
  | some c => c == "" || field == c

/-- Modelled from the claim's words (for claim C2): when a date bound is
present, the stripped timestamp must parse and the parsed time must lie
within the present bounds, inclusively. -/
def claimDateOk (row : Row) (args : Args) : Bool :=
  if args.start_date.isSome || args.end_date.isSome then
    match parse_datetime (pyStrip row.time) with
    | none => false
    | some t =>
      (match args.start_date with
       | none => true
       | some b => decide (toInstant b ≤ toInstant t))
      && (match args.end_date with
          | none => true
          | some b => decide (toInstant t ≤ toInstant b))
  else true

/-- Modelled from the claim's words (for claim C2): the full claimed
characterisation of `should_include`. -/
def claim_should_include (row : Row) (args : Args) : Bool :=
  claimCritOk args.site row.site && claimCritOk args.device row.device
    && claimCritOk args.metric row.metric && claimDateOk row args

/-- The amended characterisation: as the claim, except that an
empty-string site/device/metric criterion is treated as absent. -/
def amended_should_include (row : Row) (args : Args) : Bool :=
  amendedCritOk args.site row.site && amendedCritOk args.device row.device
    && amendedCritOk args.metric row.metric && claimDateOk row args

/-! ## Helper lemmas -/

lemma reduceOption_map_some (l : List ℚ) : (l.map some).reduceOption = l := by
  induction l with
  | nil => rfl
  | cons x xs ih => simp [List.reduceOption, ih]

lemma foldl_min_le {α : Type} [LinearOrder α] :
    ∀ (xs : List α) (x y : α), y ∈ x :: xs → xs.foldl Min.min x ≤ y := by
  intro xs
  induction xs with
  | nil =>
    intro x y hy
    simp only [List.mem_singleton] at hy
    simp [hy]
  | cons a t ih =>
    intro x y hy
    simp only [List.foldl_cons]
    rcases List.mem_cons.mp hy with h | h
    · exact le_trans (ih (Min.min x a) (Min.min x a) (List.mem_cons_self _ _))
        (by rw [h]; exact min_le_left _ _)
    · rcases List.mem_cons.mp h with h2 | h2
      · exact le_trans (ih (Min.min x a) (Min.min x a) (List.mem_cons_self _ _))
          (by rw [h2]; exact min_le_right _ _)
      · exact ih (Min.min x a) y (List.mem_cons_of_mem _ h2)

lemma foldl_min_mem {α : Type} [LinearOrder α] :
    ∀ (xs : List α) (x : α), xs.foldl Min.min x ∈ x :: xs := by
  intro xs
  induction xs with
  | nil => intro x; simp
  | cons a t ih =>
    intro x
    simp only [List.foldl_cons]
    rcases List.mem_cons.mp (ih (Min.min x a)) with h | h
    · rcases min_choice x a with hc | hc
      · rw [h, hc]; exact List.mem_cons_self _ _
      · rw [h, hc]; exact List.mem_cons_of_mem _ (List.mem_cons_self _ _)
    · exact List.mem_cons_of_mem _ (List.mem_cons_of_mem _ h)

lemma le_foldl_max {α : Type} [LinearOrder α] :
    ∀ (xs : List α) (x y : α), y ∈ x :: xs → y ≤ xs.foldl Max.max x := by
  intro xs
  induction xs with
  | nil =>
    intro x y hy
    simp only [List.mem_singleton] at hy
    simp [hy]
  | cons a t ih =>
    intro x y hy
    simp only [List.foldl_cons]
    rcases List.mem_cons.mp hy with h | h
    · exact le_trans (by rw [h]; exact le_max_left _ _)
        (ih (Max.max x a) (Max.max x a) (List.mem_cons_self _ _))
    · rcases List.mem_cons.mp h with h2 | h2
      · exact le_trans (by rw [h2]; exact le_max_right _ _)
          (ih (Max.max x a) (Max.max x a) (List.mem_cons_self _ _))
      · exact ih (Max.max x a) y (List.mem_cons_of_mem _ h2)

lemma foldl_max_mem {α : Type} [LinearOrder α] :
    ∀ (xs : List α) (x : α), xs.foldl Max.max x ∈ x :: xs := by
  intro xs
  induction xs with
  | nil => intro x; simp
  | cons a t ih =>
    intro x
    simp only [List.foldl_cons]
    rcases List.mem_cons.mp (ih (Max.max x a)) with h | h
    · rcases max_choice x a with hc | hc
      · rw [h, hc]; exact List.mem_cons_self _ _
      · rw [h, hc]; exact List.mem_cons_of_mem _ (List.mem_cons_self _ _)
    · exact List.mem_cons_of_mem _ (List.mem_cons_of_mem _ h)

lemma mul_length_le_sum (l : List ℚ) (m : ℚ) (h : ∀ y ∈ l, m ≤ y) :
    (l.length : ℚ) * m ≤ l.sum := by
  have := List.card_nsmul_le_sum l m h
  rwa [nsmul_eq_mul] at this

lemma sum_le_mul_length (l : List ℚ) (m : ℚ) (h : ∀ y ∈ l, y ≤ m) :
    l.sum ≤ (l.length : ℚ) * m := by
  have := List.sum_le_card_nsmul l m h
  rwa [nsmul_eq_mul] at this

/-- `compute_statistics` on a nonempty list of present values, written
out as an explicit record. -/
lemma compute_statistics_cons (x : ℚ) (xs : List ℚ) :
    compute_statistics ((x :: xs).map some) =
      { average := (x :: xs).sum / ((x :: xs).length : ℚ)
        min := xs.foldl Min.min x
        max := xs.foldl Max.max x
        count := (x :: xs).length
        stdDevSq :=
          if (x :: xs).length = 1 then 0
          else
            ((x :: xs).map
              (fun v => (v - (x :: xs).sum / ((x :: xs).length : ℚ)) ^ 2)).sum
              / ((x :: xs).length : ℚ) } := by
  simp only [compute_statistics, reduceOption_map_some]

/-- The `count == 1` special case in the source coincides with the
variance formula, so the branch can be eliminated. -/
lemma stdDevSq_eq_variance (x : ℚ) (xs : List ℚ) :
    (compute_statistics ((x :: xs).map some)).stdDevSq =
      ((x :: xs).map
        (fun v => (v - (x :: xs).sum / ((x :: xs).length : ℚ)) ^ 2)).sum
        / ((x :: xs).length : ℚ) := by
  rw [compute_statistics_cons]
  cases xs with
  | nil => norm_num
  | cons a t => simp

/-! ## Claims -/

/-- C7: for the empty sequence of values, `compute_statistics` returns
all five fields zero (`average = 0`, `min = 0`, `max = 0`, `count = 0`,
`std_dev = sqrt 0 = 0`) and, being a total function, does not raise. -/
theorem claim_C7_empty_sequence_zero_stats :
    compute_statistics ([] : List (Option ℚ)) =
      { average := 0, min := 0, max := 0, count := 0, stdDevSq := 0 }
    ∧ Real.sqrt (((compute_statistics ([] : List (Option ℚ))).stdDevSq : ℝ)) = 0 := by
  refine ⟨rfl, ?_⟩
  have h : (compute_statistics ([] : List (Option ℚ))).stdDevSq = 0 := rfl
  rw [h]
  simp

/-- C10: `compute_statistics` on a list of optional values equals
`compute_statistics` on the sublist of present values: `None` entries
never contribute to any statistic and never cause an error. -/
theorem claim_C10_none_entries_ignored (vs : List (Option ℚ)) :
    compute_statistics vs = compute_statistics (vs.reduceOption.map some) := by
  simp only [compute_statistics, reduceOption_map_some]

/-- C6: `convert_to_float` trims whitespace and returns `None` exactly
when the input is `None`, is empty after trimming, or fails the numeric
parse; otherwise it returns the number parsed from the trimmed text. It
is a total function: no error reaches the caller. -/
theorem claim_C6_convert_to_float_policy (v : Option String) :
    (convert_to_float v = none ↔
      v = none ∨ ∃ s, v = some s ∧ (pyStrip s = "" ∨ pyFloatOfString (pyStrip s) = none))
    ∧ (∀ s x, v = some s → convert_to_float v = some x →
        pyStrip s ≠ "" ∧ pyFloatOfString (pyStrip s) = some x) := by
  cases v with
  | none => simp [convert_to_float]
  | some s =>
    constructor
    · by_cases h : pyStrip s = "" <;> simp [convert_to_float, h]
    · intro s2 x hs hx
      have hss : s2 = s := by injection hs with h; exact h.symm
      subst hss
      by_cases h : pyStrip s2 = ""
      · rw [convert_to_float, if_pos h] at hx
        exact absurd hx (by simp)
      · rw [convert_to_float, if_neg h] at hx
        exact ⟨h, hx⟩

/-- Witness for C6: the raw text `" 42 "` converts to the number 42. -/
theorem claim_C6_witness :
    pyStrip " 42 " ≠ "" ∧ pyFloatOfString (pyStrip " 42 ") = some (PyFloat.finite 42) :=
  (claim_C6_convert_to_float_policy (some " 42 ")).2 " 42 " (PyFloat.finite 42)
    rfl (by decide)

/-- Every value found in a group after the row loop was appended there by
some input row that passed the filter and whose `value` field converted
successfully. -/
lemma mem_foldl_stepAggregation (args : Args) :
    ∀ (rows : List Row) (agg : GroupKey → List PyFloat) (k : GroupKey) (v : PyFloat),
      v ∈ (rows.foldl (stepAggregation args) agg) k →
      v ∈ agg k ∨ ∃ row, row ∈ rows ∧ should_include row args = true ∧
        convert_to_float row.value = some v ∧ k = rowKey row := by
  intro rows
  induction rows with
  | nil => intro agg k v h; exact Or.inl h
  | cons r rs ih =>
    intro agg k v h
    rw [List.foldl_cons] at h
    rcases ih (stepAggregation args agg r) k v h with h' | ⟨row, hm, hi, hc, hk⟩
    · unfold stepAggregation at h'
      by_cases hinc : should_include r args
      · rw [if_pos hinc] at h'
        cases hcv : convert_to_float r.value with
        | none => rw [hcv] at h'; exact Or.inl h'
        | some w =>
          rw [hcv] at h'
          have h2 : v ∈ (if k = rowKey r then agg k ++ [w] else agg k) := h'
          by_cases hk : k = rowKey r
          · rw [if_pos hk] at h2
            rcases List.mem_append.mp h2 with hmem | hmem
            · exact Or.inl hmem
            · refine Or.inr ⟨r, List.mem_cons_self _ _, hinc, ?_, hk⟩
              rw [hcv, List.mem_singleton.mp hmem]
          · rw [if_neg hk] at h2
            exact Or.inl h2
      · rw [if_neg hinc] at h'
        exact Or.inl h'
    · exact Or.inr ⟨row, List.mem_cons_of_mem _ hm, hi, hc, hk⟩

/-- C3, counterexample to "every stored value is finite": a row whose
`value` field is the text `"inf"` passes `float()` parsing (Python's
`float("inf")` succeeds) and the non-finite value `inf` is stored in the
group. -/
theorem claim_C3_counterexample :
    buildAggregations
        [⟨"2025-01-01", "site_1", "dev_1", "temp", "Cel", some "inf"⟩]
        ⟨none, none, none, none, none⟩ ("dev_1", "site_1", "temp")
      = [PyFloat.inf]
    ∧ PyFloat.isFinite PyFloat.inf = false :=
  ⟨by decide, rfl⟩

/-- C3 as amended: every value stored in any group was produced by a
successful `convert_to_float` on the `value` field of some input row that
passed the filter — so empty or unparsable fields are dropped before
insertion and no `None` placeholder is ever stored — but the parsed value
need not be finite (`"inf"`/`"nan"` parse successfully). -/
theorem claim_C3_amended_stored_values_parsed (rows : List Row) (args : Args)
    (k : GroupKey) (v : PyFloat) (hv : v ∈ buildAggregations rows args k) :
    ∃ row, row ∈ rows ∧ should_include row args = true ∧
      convert_to_float row.value = some v ∧ k = rowKey row := by
  rcases mem_foldl_stepAggregation args rows (fun _ => []) k v hv with h | h
  · exact absurd h (List.not_mem_nil v)
  · exact h

/-- Witness for C3 (amended): the value 42 stored for the single input
row is traced back to that row. -/
theorem claim_C3_witness :
    ∃ row, row ∈ [(⟨"2025-01-01", "site_1", "dev_1", "temp", "Cel", some "42"⟩ : Row)]
      ∧ should_include row ⟨none, none, none, none, none⟩ = true
      ∧ convert_to_float row.value = some (PyFloat.finite 42)
      ∧ ("dev_1", "site_1", "temp") = rowKey row :=
  claim_C3_amended_stored_values_parsed
    [⟨"2025-01-01", "site_1", "dev_1", "temp", "Cel", some "42"⟩]
    ⟨none, none, none, none, none⟩ ("dev_1", "site_1", "temp")
    (PyFloat.finite 42) (by decide)

/-- C1: on every non-empty sequence of numbers, `compute_statistics`
returns count = number of elements, average = sum / count, min and max =
the exact minimum and maximum, and the std-dev radicand = the mean of
squared deviations from the average (so `std_dev` is the population
standard deviation), exactly 0 when count = 1; in particular
`[10, 20, 30]` yields count 3, min 10, max 30, average 20 and
`std_dev = sqrt (200/3)`. -/
theorem claim_C1_statistics_formulas (vs : List ℚ) (h : vs ≠ []) :
    (compute_statistics (vs.map some)).count = vs.length
    ∧ (compute_statistics (vs.map some)).average = vs.sum / (vs.length : ℚ)
    ∧ (compute_statistics (vs.map some)).min ∈ vs
    ∧ (∀ y ∈ vs, (compute_statistics (vs.map some)).min ≤ y)
    ∧ (compute_statistics (vs.map some)).max ∈ vs
    ∧ (∀ y ∈ vs, y ≤ (compute_statistics (vs.map some)).max)
    ∧ (compute_statistics (vs.map some)).stdDevSq =
        (vs.map (fun v => (v - vs.sum / (vs.length : ℚ)) ^ 2)).sum / (vs.length : ℚ)
    ∧ (vs.length = 1 → (compute_statistics (vs.map some)).stdDevSq = 0)
    ∧ compute_statistics ([some 10, some 20, some 30] : List (Option ℚ)) =
        { average := 20, min := 10, max := 30, count := 3, stdDevSq := 200 / 3 }
    ∧ Real.sqrt ((compute_statistics ([some 10, some 20, some 30] : List (Option ℚ))).stdDevSq : ℝ)
        = Real.sqrt ((200 : ℝ) / 3) := by
  have hconc : compute_statistics ([some 10, some 20, some 30] : List (Option ℚ)) =
      { average := 20, min := 10, max := 30, count := 3, stdDevSq := 200 / 3 } := by
    show compute_statistics (([10, 20, 30] : List ℚ).map some) = _
    rw [compute_statistics_cons]
    norm_num [List.foldl, min_def, max_def]
  obtain ⟨x, xs, rfl⟩ := List.exists_cons_of_ne_nil h
  refine ⟨?_, ?_, ?_, ?_, ?_, ?_, ?_, ?_, hconc, ?_⟩
  · rw [compute_statistics_cons]
  · rw [compute_statistics_cons]
  · rw [compute_statistics_cons]
    exact foldl_min_mem xs x
  · intro y hy
    rw [compute_statistics_cons]
    exact foldl_min_le xs x y hy
  · rw [compute_statistics_cons]
    exact foldl_max_mem xs x
  · intro y hy
    rw [compute_statistics_cons]
    exact le_foldl_max xs x y hy
  · exact stdDevSq_eq_variance x xs
  · intro hlen
    have hxs : xs = [] := by
      simpa using hlen
    subst hxs
    rw [compute_statistics_cons]
    simp
  · rw [hconc]
    norm_num

/-- Witness for C1: at the concrete input `[10, 20, 30]` the count is 3. -/
theorem claim_C1_witness :
    (compute_statistics (([10, 20, 30] : List ℚ).map some)).count = 3 :=
  (claim_C1_statistics_formulas [10, 20, 30] (by simp)).1

/-- C9: for every non-empty sequence, `min ≤ average ≤ max` and the
standard deviation is nonnegative (its radicand, the variance, is too);
for a one-element sequence the standard deviation is exactly 0 and
average, min and max all equal that element. -/
theorem claim_C9_stat_inequalities (vs : List ℚ) (h : vs ≠ []) :
    ((compute_statistics (vs.map some)).min ≤ (compute_statistics (vs.map some)).average)
    ∧ ((compute_statistics (vs.map some)).average ≤ (compute_statistics (vs.map some)).max)
    ∧ 0 ≤ (compute_statistics (vs.map some)).stdDevSq
    ∧ 0 ≤ Real.sqrt (((compute_statistics (vs.map some)).stdDevSq : ℚ) : ℝ)
    ∧ (∀ x, vs = [x] →
        (compute_statistics (vs.map some)).stdDevSq = 0
        ∧ Real.sqrt (((compute_statistics (vs.map some)).stdDevSq : ℚ) : ℝ) = 0
        ∧ (compute_statistics (vs.map some)).average = x
        ∧ (compute_statistics (vs.map some)).min = x
        ∧ (compute_statistics (vs.map some)).max = x) := by
  obtain ⟨x, xs, rfl⟩ := List.exists_cons_of_ne_nil h
  have hn : (0 : ℚ) < ((x :: xs).length : ℚ) := by
    exact_mod_cast Nat.succ_pos xs.length
  refine ⟨?_, ?_, ?_, Real.sqrt_nonneg _, ?_⟩
  · rw [compute_statistics_cons]
    show xs.foldl Min.min x ≤ (x :: xs).sum / ((x :: xs).length : ℚ)
    rw [le_div_iff₀ hn, mul_comm]
    exact mul_length_le_sum (x :: xs) (xs.foldl Min.min x)
      (fun y hy => foldl_min_le xs x y hy)
  · rw [compute_statistics_cons]
    show (x :: xs).sum / ((x :: xs).length : ℚ) ≤ xs.foldl Max.max x
    rw [div_le_iff₀ hn, mul_comm]
    exact sum_le_mul_length (x :: xs) (xs.foldl Max.max x)
      (fun y hy => le_foldl_max xs x y hy)
  · rw [stdDevSq_eq_variance]
    refine div_nonneg (List.sum_nonneg ?_) (le_of_lt hn)
    intro y hy
    obtain ⟨v, _, rfl⟩ := List.mem_map.mp hy
    exact sq_nonneg _
  · intro x0 hvs
    have hx : x = x0 := by injection hvs
    have hxs : xs = [] := by injection hvs
    subst hx
    subst hxs
    have hz : (compute_statistics (([x] : List ℚ).map some)).stdDevSq = 0 := by
      rw [compute_statistics_cons]
      simp
    refine ⟨hz, by rw [hz]; simp, ?_, ?_, ?_⟩
    · rw [compute_statistics_cons]
      show ([x] : List ℚ).sum / (([x] : List ℚ).length : ℚ) = x
      simp
    · rw [compute_statistics_cons]
      rfl
    · rw [compute_statistics_cons]
      rfl

/-- Witness for C9: at the one-element input `[2]`, average and min equal
2 and the variance is 0. -/
theorem claim_C9_witness :
    (compute_statistics ([some 2] : List (Option ℚ))).average = 2
    ∧ (compute_statistics ([some 2] : List (Option ℚ))).stdDevSq = 0 :=
  ⟨((claim_C9_stat_inequalities [2] (by simp)).2.2.2.2 2 rfl).2.2.1,
   ((claim_C9_stat_inequalities [2] (by simp)).2.2.2.2 2 rfl).1⟩

/-- The criterion-rejection test is the negation of the amended
criterion-satisfaction test. -/
lemma strCritRejects_eq_not_amended (crit : Option String) (field : String) :
    strCritRejects crit field = !amendedCritOk crit field := by
  cases crit with
  | none => rfl
  | some c =>
    by_cases h1 : c = "" <;> by_cases h2 : field = c <;>
      simp [strCritRejects, amendedCritOk, h1, h2]

/-- The date-range block of `should_include` computes exactly the claimed
date condition. -/
lemma date_block_eq_claimDateOk (row : Row) (args : Args) :
    (if args.start_date.isSome || args.end_date.isSome then
      match parse_datetime (pyStrip row.time) with
      | none => false
      | some t =>
        if lowerBoundRejects args.start_date t then false
        else if upperBoundRejects args.end_date t then false
        else true
    else true) = claimDateOk row args := by
  unfold claimDateOk
  by_cases hio : (args.start_date.isSome || args.end_date.isSome) = true
  · rw [if_pos hio, if_pos hio]
    cases hp : parse_datetime (pyStrip row.time) with
    | none => rfl
    | some t =>
      cases hs : args.start_date with
      | none =>
        cases he : args.end_date with
        | none => rfl
        | some b =>
          by_cases hib : toInstant b < toInstant t <;>
            simp [lowerBoundRejects, upperBoundRejects, hib] <;> omega
      | some a =>
        cases he : args.end_date with
        | none =>
          by_cases hia : toInstant t < toInstant a <;>
            simp [lowerBoundRejects, upperBoundRejects, hia] <;> omega
        | some b =>
          by_cases hia : toInstant t < toInstant a <;>
            by_cases hib : toInstant b < toInstant t <;>
              simp [lowerBoundRejects, upperBoundRejects, hia, hib] <;> omega
  · rw [if_neg hio, if_neg hio]

/-- C2, counterexample to the claimed characterisation: with the site
criterion present but equal to the empty string (`--site=""`), the empty
string is falsy in Python so the filter does not reject, yet the claimed
condition "site criterion absent or record.site equals it" is false. -/
theorem claim_C2_counterexample :
    should_include ⟨"2025-01-01", "site_1", "dev_1", "temp", "", none⟩
        ⟨some "", none, none, none, none⟩ = true
    ∧ claim_should_include ⟨"2025-01-01", "site_1", "dev_1", "temp", "", none⟩
        ⟨some "", none, none, none, none⟩ = false := by
  exact ⟨by decide, by decide⟩

/-- C2 as amended: `should_include` returns true iff each of the
site/device/metric criteria is absent *or empty* or exactly matched, and,
when a start or end bound is present, the stripped timestamp parses and
the parsed time lies within the present bounds inclusively. -/
theorem claim_C2_amended_filter_characterisation (row : Row) (args : Args) :
    should_include row args = amended_should_include row args := by
  unfold should_include amended_should_include
  rw [strCritRejects_eq_not_amended args.site row.site,
    strCritRejects_eq_not_amended args.device row.device,
    strCritRejects_eq_not_amended args.metric row.metric,
    date_block_eq_claimDateOk row args]
  cases amendedCritOk args.site row.site <;>
    cases amendedCritOk args.device row.device <;>
      cases amendedCritOk args.metric row.metric <;> simp

/-- C4: when a start or end date criterion is present and the record's
stripped timestamp fails to parse, `should_include` returns false (a
filter miss, not an error — the function is total); when neither date
criterion is present, the result does not depend on the record's `time`
field at all, so a malformed timestamp never causes exclusion. -/
theorem claim_C4_unparsable_timestamp_policy (row : Row) (args : Args) :
    ((args.start_date.isSome = true ∨ args.end_date.isSome = true) →
      parse_datetime (pyStrip row.time) = none → should_include row args = false)
    ∧ (args.start_date = none → args.end_date = none →
      ∀ t : String, should_include { row with time := t } args = should_include row args) := by
  constructor
  · intro hsome hparse
    have hio : (args.start_date.isSome || args.end_date.isSome) = true := by
      rcases hsome with h | h <;> simp [h]
    unfold should_include
    rw [hio, hparse]
    by_cases h1 : strCritRejects args.site row.site <;>
      by_cases h2 : strCritRejects args.device row.device <;>
        by_cases h3 : strCritRejects args.metric row.metric <;>
          simp [h1, h2, h3]
  · intro hs he t
    unfold should_include
    rw [hs, he]
    rfl

/-- Witness for C4: a record with unparsable time `"not-a-date"` is
excluded when a start bound is present, and with no date bounds a
malformed time field does not change the outcome. -/
theorem claim_C4_witness :
    should_include ⟨"not-a-date", "site_1", "dev_1", "temp", "", none⟩
        ⟨none, none, none, some ⟨2025, 1, 1, 0, 0, 0, some 0⟩, none⟩ = false
    ∧ should_include ⟨"not-a-date", "site_1", "dev_1", "temp", "", none⟩
        ⟨none, none, none, none, none⟩ =
      should_include ⟨"2025-01-01", "site_1", "dev_1", "temp", "", none⟩
        ⟨none, none, none, none, none⟩ :=
  ⟨(claim_C4_unparsable_timestamp_policy
      ⟨"not-a-date", "site_1", "dev_1", "temp", "", none⟩
      ⟨none, none, none, some ⟨2025, 1, 1, 0, 0, 0, some 0⟩, none⟩).1
      (Or.inl rfl) (by decide),
   (claim_C4_unparsable_timestamp_policy
      ⟨"2025-01-01", "site_1", "dev_1", "temp", "", none⟩
      ⟨none, none, none, none, none⟩).2 rfl rfl "not-a-date"⟩

/-- The fix-up following a successful parse always leaves an aware
result. -/
lemma assignUTCIfNaive_isSome (d : PyDateTime) :
    (assignUTCIfNaive d).tzOffsetMin.isSome = true := by
  unfold assignUTCIfNaive
  cases h : d.tzOffsetMin <;> simp [h]

/-- C5: `parse_datetime` tries the zoned format, then `YYYY-MM-DD
HH:MM:SS`, then `YYYY-MM-DD`, in that order, returning the first format's
result (with the naive-to-UTC fix-up applied); it fails exactly when all
three formats fail; every returned datetime is timezone-aware; and a
result that carried no offset is assigned UTC (offset 0). -/
theorem claim_C5_format_priority (s : String) :
    (parse_datetime s =
      match strptime TsFormat.ymdHmsZoned s with
      | some d => some (assignUTCIfNaive d)
      | none =>
        match strptime TsFormat.ymdHms s with
        | some d => some (assignUTCIfNaive d)
        | none =>
          match strptime TsFormat.ymd s with
          | some d => some (assignUTCIfNaive d)
          | none => none)
    ∧ (parse_datetime s = none ↔
        strptime TsFormat.ymdHmsZoned s = none ∧ strptime TsFormat.ymdHms s = none
          ∧ strptime TsFormat.ymd s = none)
    ∧ (parse_datetime s).all (fun d => d.tzOffsetMin.isSome) = true
    ∧ (∀ y mo d h mi sec, (assignUTCIfNaive ⟨y, mo, d, h, mi, sec, none⟩).tzOffsetMin
        = some 0) := by
  have hdef : parse_datetime s =
      match strptime TsFormat.ymdHmsZoned s with
      | some d => some (assignUTCIfNaive d)
      | none =>
        match strptime TsFormat.ymdHms s with
        | some d => some (assignUTCIfNaive d)
        | none =>
          match strptime TsFormat.ymd s with
          | some d => some (assignUTCIfNaive d)
          | none => none := by
    unfold parse_datetime tsFormatPriority tryTsFormats
    rfl
  refine ⟨hdef, ?_, ?_, fun y mo d h mi sec => rfl⟩
  · rw [hdef]
    cases h1 : strptime TsFormat.ymdHmsZoned s <;>
      cases h2 : strptime TsFormat.ymdHms s <;>
        cases h3 : strptime TsFormat.ymd s <;> simp
  · rw [hdef]
    cases h1 : strptime TsFormat.ymdHmsZoned s with
    | some d => simp [assignUTCIfNaive_isSome]
    | none =>
      cases h2 : strptime TsFormat.ymdHms s with
      | some d => simp [assignUTCIfNaive_isSome]
      | none =>
        cases h3 : strptime TsFormat.ymd s with
        | some d => simp [assignUTCIfNaive_isSome]
        | none => simp

/-- C8: both top-10 lists are sorted descending by their statistic
(average resp. standard deviation) and have length `min 10 (number of
groups)`; with fewer than 10 groups the list is just shorter, and the
selection is total (no error). -/
theorem claim_C8_top10_sorted_and_truncated (stats : List (GroupKey × SensorStats)) :
    (top_by_avg stats).Pairwise (fun a b => b.2.average ≤ a.2.average)
    ∧ (top_by_avg stats).length = min 10 stats.length
    ∧ (top_by_stddev stats).Pairwise
        (fun a b => Real.sqrt ((b.2.stdDevSq : ℚ) : ℝ) ≤ Real.sqrt ((a.2.stdDevSq : ℚ) : ℝ))
    ∧ (top_by_stddev stats).length = min 10 stats.length := by
  refine ⟨?_, ?_, ?_, ?_⟩
  · have hs := @List.sorted_mergeSort (GroupKey × SensorStats)
      (fun a b => decide (b.2.average ≤ a.2.average))
      (fun a b c hab hbc => by
        simp only [decide_eq_true_eq] at hab hbc ⊢
        exact le_trans hbc hab)
      (fun a b => by
        simpa using le_total b.2.average a.2.average)
      stats
    refine List.Pairwise.sublist (List.take_sublist _ _) (hs.imp ?_)
    intro a b hab
    simpa using hab
  · unfold top_by_avg
    rw [List.length_take, List.length_mergeSort]
  · have hs := @List.sorted_mergeSort (GroupKey × SensorStats)
      (fun a b => decide (b.2.stdDevSq ≤ a.2.stdDevSq))
      (fun a b c hab hbc => by
        simp only [decide_eq_true_eq] at hab hbc ⊢
        exact le_trans hbc hab)
      (fun a b => by
        simpa using le_total b.2.stdDevSq a.2.stdDevSq)
      stats
    refine List.Pairwise.sublist (List.take_sublist _ _) (hs.imp ?_)
    intro a b hab
    simp only [decide_eq_true_eq] at hab
    exact Real.sqrt_le_sqrt (by exact_mod_cast hab)
  · unfold top_by_stddev
    rw [List.length_take, List.length_mergeSort]

end Analyzer
